import Mathlib

/-
Verification of the Arduino LED controller of the jetson_nano_yolov5
repository.

The main artefact embedded here is `arduino_led_control/led_control.ino`
(the WS2812B 8x8 matrix variant): serial line parsing
(`receiveSerialCommand`), command dispatch (`processCommand`), rendering
(`clearAllLEDs`, `setCirclePattern`, `fadeToCirclePattern`) and one
iteration of `loop()` (`loopIter`).  The sketch embedded in
`README_ARDUINO.md` (3-level variant with the `'p'` pulse command) is
embedded in the `Readme` namespace.

Modelling conventions:
* the LED strip is a map from pixel index to the stored packed 24-bit
  color (the Adafruit_NeoPixel buffer, before brightness scaling, which is
  a detail of the external library, not of this repository's code);
* `millis()` is an explicit `now : Nat` argument; unsigned subtraction
  `millis() - t` is `now - t` on `Nat`, which agrees with the 32-bit
  unsigned arithmetic as long as no wrap-around occurs;
* `Serial` output is a list of completed lines; a `Serial.print` followed
  by `Serial.println` is one line;
* the state additionally records, as an observation trace, the list of
  colors passed to the render primitive (`renders`); this mirrors the
  sequence of render calls the sketch performs.
-/

/-- A WS2812 strip: map from pixel index to the stored packed color. -/
abbrev Strip := Nat → Nat

/-- `#define LED_COUNT 64`. -/
def LED_COUNT : Nat := 64

/-- `#define CIRCLE_RADIUS 4`. -/
def CIRCLE_RADIUS : Nat := 4

/-- `#define USE_SMOOTH_TRANSITION true`. -/
def USE_SMOOTH_TRANSITION : Bool := true

/-- `unsigned long serialTimeout = 5000;` (milliseconds). -/
def serialTimeout : Nat := 5000

/-- `Adafruit_NeoPixel::Color`: pack three 8-bit channels as 0xRRGGBB. -/
def stripColor (r g b : Nat) : Nat :=
  (r % 256) * 65536 + (g % 256) * 256 + (b % 256)

/-- `GREEN_COLOR = strip.Color(0, 255, 0)`. -/
def GREEN_COLOR : Nat := stripColor 0 255 0

/-- `RED_COLOR = strip.Color(255, 0, 0)`. -/
def RED_COLOR : Nat := stripColor 255 0 0

/-- `BLACK_COLOR = strip.Color(0, 0, 0)`. -/
def BLACK_COLOR : Nat := stripColor 0 0 0

/-- `strip.setPixelColor(i, c)`: point update of the pixel buffer. -/
def setPixelColor (f : Strip) (i : Nat) (c : Nat) : Strip :=
  fun j => if j = i then c else f j

/-- `clearAllLEDs()`: every pixel index in `0..LED_COUNT-1` is set to
`BLACK_COLOR` (`strip.show()` has no observable effect in this model). -/
def clearAllLEDs (f : Strip) : Strip :=
  (List.range LED_COUNT).foldl (fun g i => setPixelColor g i BLACK_COLOR) f

/-- The per-pixel test of `setCirclePattern`.  The source computes
`sqrt(pow(x - 3, 2) + pow(y - 3, 2)) <= CIRCLE_RADIUS` in `float`; on the
integer inputs `0 ≤ x, y < 8` the squared distance is a small integer,
IEEE `sqrt` is correctly rounded and monotone, so the float test coincides
with the exact integer test used here (the correspondence with the real
square-root formula is proved in `circle_mask_pixels`). -/
def inCircle (x y : Nat) : Bool :=
  decide (((x : Int) - 3) ^ 2 + ((y : Int) - 3) ^ 2 ≤ (CIRCLE_RADIUS : Int) ^ 2)

/-- The global mutable state of `led_control.ino`, together with the
observable serial output and the trace of render calls.  The fields
`lastBlinkTime`, `blinkState` and `lastPingTime` model the function-local
`static` variables of `loop()`. -/
structure ControllerState where
  command : Char
  detectionLevel : Nat
  lastCommandTime : Nat
  isBlinking : Bool
  verboseLogging : Bool
  lastBlinkTime : Nat
  blinkState : Bool
  lastPingTime : Nat
  strip : Strip
  renders : List Nat
  output : List String

/-- The verbose log line printed by `setCirclePattern`. -/
def patternMsg (color : Nat) : String :=
  if color = GREEN_COLOR then "LED 패턴 설정: 초록색 원형"
  else if color = RED_COLOR then "LED 패턴 설정: 빨간색 원형"
  else if color = BLACK_COLOR then "LED 패턴 설정: 꺼짐"
  else "LED 패턴 설정: 사용자 정의 색상(0x" ++
    (String.mk (Nat.toDigits 16 color)).map Char.toUpper ++ ")"

/-- `setCirclePattern(color)`: clear all pixels, then for every grid cell
`(x, y)` with `0 ≤ x, y < 8` whose distance from the center `(3, 3)` is at
most `CIRCLE_RADIUS`, set pixel `y * 8 + x` to `color`; finally log in
verbose mode.  The color is also recorded on the render trace. -/
def setCirclePattern (color : Nat) (s : ControllerState) : ControllerState :=
  { s with
    strip :=
      (List.range 8).foldl (fun f y =>
        (List.range 8).foldl (fun f x =>
          if inCircle x y then setPixelColor f (y * 8 + x) color else f) f)
        (clearAllLEDs s.strip),
    renders := s.renders ++ [color],
    output := s.output ++ if s.verboseLogging then [patternMsg color] else [] }

/-- One channel of a fade step:
`uint8_t r = oldR + (newR - oldR) * step / 20;` computed in C `int`
arithmetic (truncating division, `Int.tdiv`) followed by the `uint8_t`
cast (reduction mod 256). -/
def fadeChannel (oldc newc step : Nat) : Nat :=
  ((((oldc : Int) + Int.tdiv (((newc : Int) - (oldc : Int)) * (step : Int)) 20) % 256)).toNat

/-- The interpolated color of one step of `fadeToCirclePattern`. -/
def fadeStepColor (oldColor newColor step : Nat) : Nat :=
  stripColor
    (fadeChannel (oldColor / 65536 % 256) (newColor / 65536 % 256) step)
    (fadeChannel (oldColor / 256 % 256) (newColor / 256 % 256) step)
    (fadeChannel (oldColor % 256) (newColor % 256) step)

/-- `fadeToCirclePattern(color, duration)`: sample the currently displayed
color from pixel 27; if it reads 0 set the target pattern at once,
otherwise render the 21 interpolation steps `step = 0..20` and finish with
an exact render of the target.  The `duration` argument only feeds
`delay()` and has no observable effect in this model, so it is omitted. -/
def fadeToCirclePattern (color : Nat) (s : ControllerState) : ControllerState :=
  let oldColor := s.strip 27
  if oldColor = 0 then
    setCirclePattern color s
  else
    let s1 := if s.verboseLogging
      then { s with output := s.output ++ ["색상 페이드 시작"] } else s
    let s2 := (List.range 21).foldl
      (fun st step => setCirclePattern (fadeStepColor oldColor color step) st) s1
    let s3 := setCirclePattern color s2
    if s3.verboseLogging
      then { s3 with output := s3.output ++ ["색상 페이드 완료"] } else s3

/-- The acknowledgment line `Serial.print("S:"); Serial.println(detectionLevel);`. -/
def ackLine (level : Nat) : String := "S:" ++ toString level

/-- `processCommand(cmd)` of `led_control.ino`: `'v'` toggles verbose
logging and returns early; `'0'` sets level 0, cancels blinking and
renders green; `'1'` and `'2'` both set level 1, enable blinking and
render red; any other byte falls through with no state change; every
non-`'v'` dispatch ends by acknowledging the current level with `S:`. -/
def processCommand (cmd : Char) (s : ControllerState) : ControllerState :=
  let s0 := { s with command := cmd }
  if cmd = 'v' then
    let vb := !s0.verboseLogging
    { s0 with verboseLogging := vb,
              output := s0.output ++
                ["상세 로그: " ++ if vb then "활성화" else "비활성화"] }
  else
    let s1 := if s0.verboseLogging
      then { s0 with output := s0.output ++ ["처리 중인 명령: " ++ String.mk [cmd]] }
      else s0
    let s2 :=
      if cmd = '0' then
        let t := if USE_SMOOTH_TRANSITION
          then fadeToCirclePattern GREEN_COLOR
                 { s1 with detectionLevel := 0, isBlinking := false }
          else setCirclePattern GREEN_COLOR
                 { s1 with detectionLevel := 0, isBlinking := false }
        if t.verboseLogging
          then { t with output := t.output ++ ["상태: 감지 없음 (초록색)"] } else t
      else if cmd = '1' ∨ cmd = '2' then
        let t := if USE_SMOOTH_TRANSITION
          then fadeToCirclePattern RED_COLOR
                 { s1 with detectionLevel := 1, isBlinking := true }
          else setCirclePattern RED_COLOR
                 { s1 with detectionLevel := 1, isBlinking := true }
        if t.verboseLogging
          then { t with output := t.output ++ ["상태: 감지됨 (빨간색)"] } else t
      else s1
    { s2 with output := s2.output ++ [ackLine s2.detectionLevel] }

/-- Line terminators recognized by `receiveSerialCommand`. -/
def isTermChar (c : Char) : Bool := c = '\n' || c = '\r'

/-- The verbose echo printed by `receiveSerialCommand` before a dispatch. -/
def logReceive (label : String) (buf : List Char) (s : ControllerState) : ControllerState :=
  if s.verboseLogging
  then { s with output := s.output ++ [label ++ String.mk buf] } else s

/-- The body of `receiveSerialCommand()`: one Arduino `while
(Serial.available() > 0)` loop over the list of immediately available
bytes.  Per byte: refresh `lastCommandTime`; a terminator dispatches the
first buffered character (if any) and clears the buffer; any other byte is
appended to the buffer; after the last available byte a non-empty buffer
is dispatched immediately.  The first component of the result is the trace
of characters passed to `processCommand`, in dispatch order. -/
def receiveSerialCommandAux (now : Nat) :
    List Char → List Char → ControllerState → List Char × ControllerState
  | [], _, s => ([], s)
  | c :: rest, buf, s =>
    let s1 : ControllerState := { s with lastCommandTime := now }
    let t1 : List Char × List Char × ControllerState :=
      if isTermChar c then
        if buf.isEmpty then ([], buf, s1)
        else ([buf.headD ' '], [],
              processCommand (buf.headD ' ') (logReceive "명령 수신: " buf s1))
      else ([], buf ++ [c], s1)
    let t2 : List Char × List Char × ControllerState :=
      if rest.isEmpty && !t1.2.1.isEmpty then
        (t1.1 ++ [t1.2.1.headD ' '], [],
         processCommand (t1.2.1.headD ' ') (logReceive "명령 즉시 처리: " t1.2.1 t1.2.2))
      else t1
    let r := receiveSerialCommandAux now rest t2.2.1 t2.2.2
    (t2.1 ++ r.1, r.2)

/-- `receiveSerialCommand()` entered with the empty static buffer (the
source buffer is always empty on entry and on exit of the `while` loop). -/
def receiveSerialCommand (now : Nat) (input : List Char) (s : ControllerState) :
    List Char × ControllerState :=
  receiveSerialCommandAux now input [] s

/-- One iteration of `loop()` at time `now` with `input` the serial bytes
available during this iteration: receive commands, apply the 500 ms blink
toggle while level 1 and blinking, the 30 s verbose ping, and the
`serialTimeout` idle fallback to the green default state. -/
def loopIter (now : Nat) (input : List Char) (s : ControllerState) : ControllerState :=
  let s1 := (receiveSerialCommand now input s).2
  let s2 :=
    if s1.detectionLevel = 1 ∧ s1.isBlinking then
      if now - s1.lastBlinkTime > 500 then
        let bs := !s1.blinkState
        let t := { s1 with lastBlinkTime := now, blinkState := bs }
        if bs then setCirclePattern RED_COLOR t else setCirclePattern BLACK_COLOR t
      else s1
    else s1
  let s3 :=
    if now - s2.lastPingTime > 30000 then
      let t := { s2 with lastPingTime := now }
      if t.verboseLogging then { t with output := t.output ++ ["PING"] } else t
    else s2
  if now - s3.lastCommandTime > serialTimeout ∧ s3.detectionLevel ≠ 0 then
    let t := setCirclePattern GREEN_COLOR
               { s3 with detectionLevel := 0, isBlinking := false }
    if t.verboseLogging
      then { t with output := t.output ++ ["시리얼 타임아웃: 기본 상태(녹색)로 복귀"] }
      else t
  else s3

/-- A state with every pixel off and all variables at their declared
initial values, before `setup()` renders anything. -/
def blankState : ControllerState :=
  { command := '0', detectionLevel := 0, lastCommandTime := 0,
    isBlinking := false, verboseLogging := false,
    lastBlinkTime := 0, blinkState := true, lastPingTime := 0,
    strip := fun _ => 0, renders := [], output := [] }

/-- The state right after `setup()`: green circle rendered, then the
`"준비 완료"` greeting printed. -/
def initialState : ControllerState :=
  let s := setCirclePattern GREEN_COLOR blankState
  { s with output := s.output ++ ["준비 완료"] }

/-- Specification-side splitting of a byte stream into lines at the
terminators recognized by the parser. -/
def splitLines : List Char → List (List Char)
  | [] => [[]]
  | c :: rest =>
    if isTermChar c then [] :: splitLines rest
    else
      match splitLines rest with
      | [] => [[c]]
      | l :: ls => (c :: l) :: ls

/-- First characters of the non-empty lines of a split stream. -/
def nonemptyHeads (ls : List (List Char)) : List Char :=
  (ls.filter (fun l => !l.isEmpty)).map (fun l => l.headD ' ')

/-- The detection level `led_control.ino` assigns to a valid command
character: `'0'` maps to 0, `'1'` and `'2'` both map to 1. -/
def levelOfCmd (c : Char) : Nat := if c = '0' then 0 else 1

/-- The implicit invariant of the matrix variant: at level 0 the blink
flag is always off. -/
abbrev BlinkInv (s : ControllerState) : Prop :=
  s.detectionLevel = 0 → s.isBlinking = false

namespace Readme

/-
The sketch written by `README_ARDUINO.md` into
`arduino_led_control/led_control.ino` (3-level full-strip variant with the
`'p'` pulse command).  Commands are read one byte at a time directly from
`Serial` with no line buffering.
-/

/-- The global state of the README sketch, with the serial output and the
trace of colors passed to `setColor`. -/
structure SketchState where
  command : Char
  detectionLevel : Nat
  strip : Strip
  renders : List Nat
  output : List String

/-- `GREEN_COLOR = strip.Color(0, 255, 0)`. -/
def GREEN_COLOR : Nat := stripColor 0 255 0

/-- `ORANGE_COLOR = strip.Color(255, 165, 0)`. -/
def ORANGE_COLOR : Nat := stripColor 255 165 0

/-- `RED_COLOR = strip.Color(255, 0, 0)`. -/
def RED_COLOR : Nat := stripColor 255 0 0

/-- `setColor(color)`: every pixel of the strip is set to `color`. -/
def setColor (color : Nat) (s : SketchState) : SketchState :=
  { s with
    strip := (List.range LED_COUNT).foldl (fun f i => setPixelColor f i color) s.strip,
    renders := s.renders ++ [color] }

/-- One brightness step of `pulseEffect`:
`strip.Color(r*k/100, g*k/100, b*k/100)` in C `int` arithmetic. -/
def scaleColor (color k : Nat) : Nat :=
  stripColor (color / 65536 % 256 * k / 100) (color / 256 % 256 * k / 100)
    (color % 256 * k / 100)

/-- The brightness percentages of the downward ramp
`for (int k = 100; k >= 20; k -= 5)`. -/
def downSteps : List Nat := (List.range 17).map (fun i => 100 - 5 * i)

/-- The brightness percentages of the upward ramp
`for (int k = 20; k <= 100; k += 5)`. -/
def upSteps : List Nat := (List.range 17).map (fun i => 20 + 5 * i)

/-- `pulseEffect(color, count)`: `count` cycles of a downward then upward
brightness ramp of `color`, then a final render of `color` itself. -/
def pulseEffect (color : Nat) (count : Nat) (s : SketchState) : SketchState :=
  let s1 := (List.range count).foldl (fun st _ =>
    let std := downSteps.foldl (fun st k => setColor (scaleColor color k) st) st
    upSteps.foldl (fun st k => setColor (scaleColor color k) st) std) s
  setColor color s1

/-- `fadeToColor(color, duration)` of the README sketch: samples pixel 0,
skips when it reads 0, otherwise renders 21 interpolation steps and the
exact target (the `duration` argument only feeds `delay()`). -/
def fadeToColor (color : Nat) (s : SketchState) : SketchState :=
  let oldColor := s.strip 0
  if oldColor = 0 then setColor color s
  else
    let s1 := (List.range 21).foldl
      (fun st step => setColor (fadeStepColor oldColor color step) st) s
    setColor color s1

/-- The color of each detection level in the README sketch: green for 0,
orange for 1, red otherwise. -/
def levelColor (level : Nat) : Nat :=
  if level = 0 then GREEN_COLOR else if level = 1 then ORANGE_COLOR else RED_COLOR

/-- The command-dispatch portion of `loop()` of the README sketch, run
when `Serial.available() > 0` with `cmd` the byte read: `'0'`, `'1'`,
`'2'` set the level and fade to its color; `'p'` runs a pulse of the
current level's color without touching the level; anything else is
ignored. -/
def loopCommand (cmd : Char) (s : SketchState) : SketchState :=
  let s0 := { s with command := cmd }
  if cmd = '0' then
    let t := fadeToColor GREEN_COLOR { s0 with detectionLevel := 0 }
    { t with output := t.output ++ ["상태: 감지 없음 (초록색)"] }
  else if cmd = '1' then
    let t := fadeToColor ORANGE_COLOR { s0 with detectionLevel := 1 }
    { t with output := t.output ++ ["상태: 감지됨 (주황색)"] }
  else if cmd = '2' then
    let t := fadeToColor RED_COLOR { s0 with detectionLevel := 2 }
    { t with output := t.output ++ ["상태: 위험 (빨간색)"] }
  else if cmd = 'p' then
    if s0.detectionLevel = 0 then pulseEffect GREEN_COLOR 3 s0
    else if s0.detectionLevel = 1 then pulseEffect ORANGE_COLOR 3 s0
    else pulseEffect RED_COLOR 3 s0
  else s0

/-- Specification-side render trace of a full pulse: `count` copies of the
down-then-up brightness ramp applied to `color`, then `color` itself. -/
def pulseRendersList (color : Nat) (count : Nat) : List Nat :=
  (List.replicate count ((downSteps ++ upSteps).map (scaleColor color))).flatten ++ [color]

end Readme

/-- Reading a pixel after a fold of conditional writes of one fixed color:
the pixel holds the color iff some list element writes it. -/
theorem foldl_overwrite_apply {α : Type} (step : Strip → α → Strip) (q : α → Nat → Bool)
    (color : Nat) (hstep : ∀ f a i, step f a i = if q a i then color else f i) :
    ∀ (l : List α) (f : Strip) (i : Nat),
      l.foldl step f i = if l.any (fun a => q a i) then color else f i := by
  intro l
  induction l with
  | nil => intro f i; simp
  | cons a t ih =>
    intro f i
    rw [List.foldl_cons, ih, hstep]
    cases hq : q a i <;> cases ht : t.any (fun a => q a i) <;>
      simp [List.any_cons, hq, ht]

/-- Membership test over `List.range` as a bound check. -/
theorem range_any_eq_decide (n i : Nat) :
    (List.range n).any (fun a => decide (i = a)) = decide (i < n) := by
  rcases Nat.lt_or_ge i n with h | h
  · have h1 : (List.range n).any (fun a => decide (i = a)) = true := by
      rw [List.any_eq_true]
      exact ⟨i, List.mem_range.mpr h, by simp⟩
    rw [h1, decide_eq_true h]
  · have h1 : (List.range n).any (fun a => decide (i = a)) = false := by
      rw [List.any_eq_false]
      intro x hx
      have := List.mem_range.mp hx
      simp only [decide_eq_true_eq]
      omega
    rw [h1]
    have : ¬ i < n := by omega
    simp [this]

/-- `clearAllLEDs` zeroes exactly the pixels below `LED_COUNT`. -/
theorem clearAllLEDs_apply (f : Strip) (i : Nat) :
    clearAllLEDs f i = if i < 64 then 0 else f i := by
  have h := foldl_overwrite_apply (fun g a => setPixelColor g a BLACK_COLOR)
    (fun a i => decide (i = a)) 0
    (by
      intro g a j
      simp only [setPixelColor]
      have hB : BLACK_COLOR = 0 := rfl
      rw [hB]
      by_cases hj : j = a <;> simp [hj])
    (List.range 64) f i
  have hL : LED_COUNT = 64 := rfl
  rw [clearAllLEDs, hL, h, range_any_eq_decide]
  by_cases hi : i < 64 <;> simp [hi]

/-- Pointwise description of the strip written by `setCirclePattern`. -/
theorem setCirclePattern_strip_apply (color : Nat) (s : ControllerState)
    (x y : Nat) (hx : x < 8) (hy : y < 8) :
    (setCirclePattern color s).strip (y * 8 + x) =
      if inCircle x y then color else 0 := by
  have inner : ∀ (yy : Nat) (f : Strip) (i : Nat),
      ((List.range 8).foldl (fun f xx =>
        if inCircle xx yy then setPixelColor f (yy * 8 + xx) color else f) f) i =
      if (List.range 8).any (fun xx => inCircle xx yy && decide (i = yy * 8 + xx))
        then color else f i := by
    intro yy
    refine foldl_overwrite_apply _ _ color ?_ (List.range 8)
    intro f a i
    by_cases hc : inCircle a yy
    · simp only [hc, if_true, setPixelColor, Bool.true_and]
      by_cases hi : i = yy * 8 + a <;> simp [hi]
    · simp [hc]
  have outer : ∀ (f : Strip) (i : Nat),
      ((List.range 8).foldl (fun f yy =>
        (List.range 8).foldl (fun f xx =>
          if inCircle xx yy then setPixelColor f (yy * 8 + xx) color else f) f) f) i =
      if (List.range 8).any (fun yy => (List.range 8).any
          (fun xx => inCircle xx yy && decide (i = yy * 8 + xx)))
        then color else f i := by
    refine foldl_overwrite_apply _ _ color ?_ (List.range 8)
    intro f a i
    exact inner a f i
  have key : ((List.range 8).any (fun yy => (List.range 8).any
      (fun xx => inCircle xx yy && decide (y * 8 + x = yy * 8 + xx)))) = inCircle x y := by
    cases hc : inCircle x y
    · rw [List.any_eq_false]
      intro yy hyy
      intro hP
      rw [List.any_eq_true] at hP
      obtain ⟨xx, hxx, hx2⟩ := hP
      have hyy8 := List.mem_range.mp hyy
      have hxx8 := List.mem_range.mp hxx
      simp only [Bool.and_eq_true, decide_eq_true_eq] at hx2
      obtain ⟨hcirc, heq⟩ := hx2
      have hxeq : xx = x ∧ yy = y := by omega
      rw [hxeq.1, hxeq.2] at hcirc
      rw [hcirc] at hc
      exact Bool.true_eq_false.mp hc
    · rw [List.any_eq_true]
      refine ⟨y, List.mem_range.mpr hy, ?_⟩
      rw [List.any_eq_true]
      exact ⟨x, List.mem_range.mpr hx, by simp [hc]⟩
  have hstrip : (setCirclePattern color s).strip =
      (List.range 8).foldl (fun f y =>
        (List.range 8).foldl (fun f x =>
          if inCircle x y then setPixelColor f (y * 8 + x) color else f) f)
        (clearAllLEDs s.strip) := rfl
  rw [hstrip, outer, key, clearAllLEDs_apply]
  have h64 : y * 8 + x < 64 := by omega
  simp [h64]

/-- The center pixel 27 = (3,3) always receives the rendered color. -/
theorem setCirclePattern_strip_27 (color : Nat) (s : ControllerState) :
    (setCirclePattern color s).strip 27 = color := by
  have h := setCirclePattern_strip_apply color s 3 3 (by omega) (by omega)
  have h33 : inCircle 3 3 = true := by decide
  rw [h33] at h
  simpa using h

/-- A projection preserved by every fold step is preserved by the fold. -/
theorem foldl_preserve {β γ δ : Type} (g : β → δ) (f : β → γ → β)
    (h : ∀ b c, g (f b c) = g b) : ∀ (l : List γ) (b : β), g (l.foldl f b) = g b := by
  intro l
  induction l with
  | nil => intro b; rfl
  | cons a t ih => intro b; rw [List.foldl_cons, ih, h]

/-- The control fields untouched by the render primitives. -/
def coreFields (s : ControllerState) :
    Nat × Bool × Bool × Char × Nat × Nat × Bool × Nat :=
  (s.detectionLevel, s.isBlinking, s.verboseLogging, s.command,
   s.lastCommandTime, s.lastBlinkTime, s.blinkState, s.lastPingTime)

theorem setCirclePattern_coreFields (c : Nat) (s : ControllerState) :
    coreFields (setCirclePattern c s) = coreFields s := rfl

/-- A conditional log append only touches `output`. -/
theorem ifOutput_coreFields (b : Bool) (l : List String) (t : ControllerState) :
    coreFields (if b then { t with output := l } else t) = coreFields t := by
  split <;> rfl

theorem ifOutput_detectionLevel (b : Bool) (l : List String) (t : ControllerState) :
    (if b then { t with output := l } else t).detectionLevel = t.detectionLevel := by
  split <;> rfl

theorem ifOutput_isBlinking (b : Bool) (l : List String) (t : ControllerState) :
    (if b then { t with output := l } else t).isBlinking = t.isBlinking := by
  split <;> rfl

theorem ifOutput_verboseLogging (b : Bool) (l : List String) (t : ControllerState) :
    (if b then { t with output := l } else t).verboseLogging = t.verboseLogging := by
  split <;> rfl

theorem ifOutput_strip (b : Bool) (l : List String) (t : ControllerState) :
    (if b then { t with output := l } else t).strip = t.strip := by
  split <;> rfl

theorem ifOutput_renders (b : Bool) (l : List String) (t : ControllerState) :
    (if b then { t with output := l } else t).renders = t.renders := by
  split <;> rfl

theorem ifOutput_lastCommandTime (b : Bool) (l : List String) (t : ControllerState) :
    (if b then { t with output := l } else t).lastCommandTime = t.lastCommandTime := by
  split <;> rfl

theorem fadeToCirclePattern_coreFields (c : Nat) (s : ControllerState) :
    coreFields (fadeToCirclePattern c s) = coreFields s := by
  have hstep : ∀ (b : ControllerState) (step : Nat),
      coreFields (setCirclePattern (fadeStepColor (s.strip 27) c step) b) = coreFields b :=
    fun _ _ => rfl
  have hfold : ∀ (b : ControllerState),
      coreFields ((List.range 21).foldl (fun st step =>
        setCirclePattern (fadeStepColor (s.strip 27) c step) st) b) = coreFields b :=
    fun b => foldl_preserve coreFields
      (fun st step => setCirclePattern (fadeStepColor (s.strip 27) c step) st)
      hstep (List.range 21) b
  rw [fadeToCirclePattern]
  split
  · rfl
  · exact (ifOutput_coreFields _ _ _).trans
      ((setCirclePattern_coreFields _ _).trans
        ((hfold _).trans (ifOutput_coreFields _ _ _)))

theorem fadeToCirclePattern_detectionLevel (c : Nat) (s : ControllerState) :
    (fadeToCirclePattern c s).detectionLevel = s.detectionLevel :=
  congrArg (fun t => t.1) (fadeToCirclePattern_coreFields c s)

theorem fadeToCirclePattern_isBlinking (c : Nat) (s : ControllerState) :
    (fadeToCirclePattern c s).isBlinking = s.isBlinking :=
  congrArg (fun t => t.2.1) (fadeToCirclePattern_coreFields c s)

theorem fadeToCirclePattern_verboseLogging (c : Nat) (s : ControllerState) :
    (fadeToCirclePattern c s).verboseLogging = s.verboseLogging :=
  congrArg (fun t => t.2.2.1) (fadeToCirclePattern_coreFields c s)

/-- Detection level and blink flag written by `processCommand`. -/
theorem processCommand_level_blink (c : Char) (s : ControllerState) :
    ((processCommand c s).detectionLevel, (processCommand c s).isBlinking) =
      if c = 'v' then (s.detectionLevel, s.isBlinking)
      else if c = '0' then (0, false)
      else if c = '1' ∨ c = '2' then (1, true)
      else (s.detectionLevel, s.isBlinking) := by
  by_cases hv : c = 'v'
  · simp [processCommand, hv]
  · by_cases h0 : c = '0'
    · by_cases hvb : s.verboseLogging <;>
        simp [processCommand, hv, h0, hvb, USE_SMOOTH_TRANSITION,
          fadeToCirclePattern_detectionLevel, fadeToCirclePattern_isBlinking,
          fadeToCirclePattern_verboseLogging]
    · by_cases h12 : c = '1' ∨ c = '2'
      · by_cases hvb : s.verboseLogging <;>
          simp [processCommand, hv, h0, h12, hvb, USE_SMOOTH_TRANSITION,
            fadeToCirclePattern_detectionLevel, fadeToCirclePattern_isBlinking,
            fadeToCirclePattern_verboseLogging]
      · by_cases hvb : s.verboseLogging <;>
          simp [processCommand, hv, h0, h12, hvb]

/-- Every non-`'v'` dispatch ends with the `S:` acknowledgment of the
detection level it just left in place. -/
theorem processCommand_ack (c : Char) (s : ControllerState) (hc : c ≠ 'v') :
    (processCommand c s).output.getLast? =
      some (ackLine (processCommand c s).detectionLevel) := by
  rw [processCommand, if_neg hc]
  exact List.getLast?_concat _

/-- Dispatching a valid command sets the level of the code's table and
acknowledges exactly that level. -/
theorem processCommand_valid_level_ack (c : Char) (s : ControllerState)
    (h : c = '0' ∨ c = '1' ∨ c = '2') :
    (processCommand c s).detectionLevel = levelOfCmd c ∧
    (processCommand c s).output.getLast? = some (ackLine (levelOfCmd c)) := by
  have hv : c ≠ 'v' := by rcases h with rfl | rfl | rfl <;> decide
  have hlb := processCommand_level_blink c s
  have hlevel : (processCommand c s).detectionLevel = levelOfCmd c := by
    rcases h with rfl | rfl | rfl <;>
      simpa [levelOfCmd] using congrArg Prod.fst hlb
  exact ⟨hlevel, by rw [processCommand_ack c s hv, hlevel]⟩

/-- C1, amended: the acknowledgment after a dispatched command in
{'0','1','2'} is "S:" followed by the level `led_control.ino` assigns to
that command, where '0' implies level 0 and both '1' and '2' imply level
1 — so the response to '2' is S:1, not the S:2 of the claim's protocol
table; for every non-empty sequence of valid commands the reported level
equals the level implied by the most recently dispatched command. -/
theorem reported_level_matches_last_command (s : ControllerState)
    (cmds : List Char) (c : Char)
    (hvalid : ∀ d ∈ cmds, d = '0' ∨ d = '1' ∨ d = '2')
    (hlast : cmds.getLast? = some c) :
    (cmds.foldl (fun st d => processCommand d st) s).detectionLevel = levelOfCmd c ∧
    (cmds.foldl (fun st d => processCommand d st) s).output.getLast? =
      some (ackLine (levelOfCmd c)) := by
  revert hvalid hlast
  induction cmds using List.reverseRecOn with
  | nil => intro _ hlast; simp at hlast
  | append_singleton l a _ =>
    intro hvalid hlast
    rw [List.foldl_append, List.foldl_cons, List.foldl_nil]
    have ha : a = '0' ∨ a = '1' ∨ a = '2' := hvalid a (by simp)
    have hca : c = a := by
      rw [List.getLast?_concat] at hlast
      exact (Option.some.inj hlast).symm
    subst hca
    exact processCommand_valid_level_ack c _ ha

/-- C1 witness: the sequence ['2'] from the initial state. -/
theorem reported_level_matches_last_command_witness :
    (List.foldl (fun st d => processCommand d st) initialState ['2']).detectionLevel =
      levelOfCmd '2' :=
  (reported_level_matches_last_command initialState ['2'] '2'
    (by decide) (by decide)).1

/-- C1 counterexample: dispatching '2' from the initial state is
acknowledged with S:1, not the S:2 the claim derives from the protocol
table ('2' is an alias for level 1 in this sketch). -/
theorem ack_after_two_is_S1 :
    (processCommand '2' initialState).output.getLast? = some "S:1" ∧
    (processCommand '2' initialState).output.getLast? ≠ some "S:2" := by
  constructor <;> decide

/-- C2: after any `setCirclePattern color` the pixel at grid position
(x, y), pixel index y*8+x, holds `color` iff
sqrt((x-3)^2 + (y-3)^2) ≤ 4, and is off (0) otherwise; the boolean test
of the code is exactly the real square-root test of the claim, for all
64 coordinates. -/
theorem circle_mask_pixels (color : Nat) (s : ControllerState) (x y : Nat)
    (hx : x < 8) (hy : y < 8) :
    ((setCirclePattern color s).strip (y * 8 + x) =
      if inCircle x y then color else 0) ∧
    (inCircle x y = true ↔
      Real.sqrt (((x : ℝ) - 3) ^ 2 + ((y : ℝ) - 3) ^ 2) ≤ 4) := by
  refine ⟨setCirclePattern_strip_apply color s x y hx hy, ?_⟩
  have hcast : (((x : ℝ) - 3) ^ 2 + ((y : ℝ) - 3) ^ 2) =
      ((((x : Int) - 3) ^ 2 + ((y : Int) - 3) ^ 2 : Int) : ℝ) := by
    push_cast
    ring
  have hrad : ((CIRCLE_RADIUS : Int)) ^ 2 = 16 := by norm_num [CIRCLE_RADIUS]
  rw [inCircle, decide_eq_true_eq, Real.sqrt_le_iff, hcast, hrad]
  constructor
  · intro h
    refine ⟨by norm_num, ?_⟩
    calc ((((x : Int) - 3) ^ 2 + ((y : Int) - 3) ^ 2 : Int) : ℝ) ≤ (16 : ℝ) := by
          exact_mod_cast h
      _ = 4 ^ 2 := by norm_num
  · rintro ⟨-, h⟩
    have h16 : ((((x : Int) - 3) ^ 2 + ((y : Int) - 3) ^ 2 : Int) : ℝ) ≤ 16 := by
      calc ((((x : Int) - 3) ^ 2 + ((y : Int) - 3) ^ 2 : Int) : ℝ) ≤ (4 : ℝ) ^ 2 := h
        _ = 16 := by norm_num
    exact_mod_cast h16

/-- C2 witness: a concrete pixel of a concrete render. -/
theorem circle_mask_pixels_witness :
    (setCirclePattern 9 blankState).strip (2 * 8 + 1) =
      if inCircle 1 2 then 9 else 0 :=
  (circle_mask_pixels 9 blankState 1 2 (by decide) (by decide)).1

/-- Both exits of `fadeToCirclePattern` end with an exact render of the
target, so the center pixel reads the target color afterwards. -/
theorem fadeToCirclePattern_strip_27 (c : Nat) (s : ControllerState) :
    (fadeToCirclePattern c s).strip 27 = c := by
  rw [fadeToCirclePattern]
  split
  · exact setCirclePattern_strip_27 c s
  · exact (congrArg (fun t => t 27) (ifOutput_strip _ _ _)).trans
      (setCirclePattern_strip_27 c _)

/-- C6: fading A→B with `fadeToCirclePattern` and then immediately fading
back B→A reproduces A exactly at the final step (each fade finishes with
an exact render of its target), in particular within the ±1 per-channel
tolerance the claim allows. -/
theorem fade_round_trip (a b : Nat) (s : ControllerState) :
    (fadeToCirclePattern a (fadeToCirclePattern b s)).strip 27 = a ∧
    ∀ d : Nat,
      ((((fadeToCirclePattern a (fadeToCirclePattern b s)).strip 27 / d % 256 : Nat) : Int) -
        ((a / d % 256 : Nat) : Int)).natAbs ≤ 1 := by
  have h := fadeToCirclePattern_strip_27 a (fadeToCirclePattern b s)
  exact ⟨h, fun d => by rw [h]; simp⟩

/-- C10: `fadeToCirclePattern` samples the displayed color from the single
pixel 27 (grid position (3,3)); when that pixel reads 0 the fade is
skipped entirely and the target pattern is set immediately, with exactly
one render and no interpolation steps. -/
theorem fade_skip_when_center_dark (c : Nat) (s : ControllerState)
    (h : s.strip 27 = 0) :
    fadeToCirclePattern c s = setCirclePattern c s ∧
    (fadeToCirclePattern c s).renders = s.renders ++ [c] := by
  have he : fadeToCirclePattern c s = setCirclePattern c s := by
    rw [fadeToCirclePattern]
    simp [h]
  exact ⟨he, by rw [he]; rfl⟩

/-- C10 witness: a blank strip reads 0 at pixel 27; the fade degenerates
to a single render. -/
theorem fade_skip_when_center_dark_witness :
    fadeToCirclePattern 5 blankState = setCirclePattern 5 blankState :=
  (fade_skip_when_center_dark 5 blankState rfl).1

/-- C8: dispatching 'v' twice toggles verboseLogging on and then back off,
restoring its original value, and neither dispatch changes the detection
level, the blink flag, or the rendered LED frame. -/
theorem verbose_toggle_twice (s : ControllerState) :
    (processCommand 'v' (processCommand 'v' s)).verboseLogging = s.verboseLogging ∧
    (processCommand 'v' s).verboseLogging = !s.verboseLogging ∧
    (processCommand 'v' s).detectionLevel = s.detectionLevel ∧
    (processCommand 'v' s).isBlinking = s.isBlinking ∧
    (processCommand 'v' s).strip = s.strip ∧
    (processCommand 'v' s).renders = s.renders ∧
    (processCommand 'v' (processCommand 'v' s)).detectionLevel = s.detectionLevel ∧
    (processCommand 'v' (processCommand 'v' s)).isBlinking = s.isBlinking ∧
    (processCommand 'v' (processCommand 'v' s)).strip = s.strip ∧
    (processCommand 'v' (processCommand 'v' s)).renders = s.renders := by
  simp [processCommand]

/-- An unrecognized command only records the byte and appends the verbose
echo and the acknowledgment; everything else is untouched. -/
theorem processCommand_unrecognized (c : Char) (s : ControllerState)
    (h0 : c ≠ '0') (h1 : c ≠ '1') (h2 : c ≠ '2') (hv : c ≠ 'v') :
    processCommand c s =
      { s with
        command := c,
        output := s.output ++
          (if s.verboseLogging then ["처리 중인 명령: " ++ String.mk [c]] else []) ++
          [ackLine s.detectionLevel] } := by
  have h12 : ¬(c = '1' ∨ c = '2') := by
    rintro (rfl | rfl)
    · exact h1 rfl
    · exact h2 rfl
  rw [processCommand, if_neg hv]
  by_cases hvb : s.verboseLogging <;>
    simp [h0, h12, hvb, List.append_assoc]

/-- C5, amended: a dispatched command outside {'0','1','2','v'} raises no
error and leaves detectionLevel, isBlinking, verboseLogging and the
rendered frame unchanged, but the acknowledgment `S:<current level>` is
still emitted on the serial channel (the claim's "no response is emitted"
does not hold on this code). -/
theorem unrecognized_command_ignored (c : Char) (s : ControllerState)
    (h0 : c ≠ '0') (h1 : c ≠ '1') (h2 : c ≠ '2') (hv : c ≠ 'v') :
    (processCommand c s).detectionLevel = s.detectionLevel ∧
    (processCommand c s).isBlinking = s.isBlinking ∧
    (processCommand c s).verboseLogging = s.verboseLogging ∧
    (processCommand c s).strip = s.strip ∧
    (processCommand c s).renders = s.renders ∧
    (processCommand c s).output = s.output ++
      (if s.verboseLogging then ["처리 중인 명령: " ++ String.mk [c]] else []) ++
      [ackLine s.detectionLevel] := by
  rw [processCommand_unrecognized c s h0 h1 h2 hv]
  exact ⟨rfl, rfl, rfl, rfl, rfl, rfl⟩

/-- C5 witness: an unrecognized byte leaves the detection level alone. -/
theorem unrecognized_command_ignored_witness :
    (processCommand 'q' initialState).detectionLevel = initialState.detectionLevel :=
  (unrecognized_command_ignored 'q' initialState
    (by decide) (by decide) (by decide) (by decide)).1

/-- C5 counterexample: dispatching the unrecognized byte 'x' does emit a
serial response, namely the acknowledgment S:0 of the current level,
contradicting the claim's "no response is emitted on the serial
channel". -/
theorem unrecognized_command_emits_response :
    (processCommand 'x' initialState).output ≠ initialState.output ∧
    (processCommand 'x' initialState).output = initialState.output ++ ["S:0"] := by
  constructor <;> decide

theorem setCirclePattern_detectionLevel (c : Nat) (s : ControllerState) :
    (setCirclePattern c s).detectionLevel = s.detectionLevel := rfl

theorem setCirclePattern_isBlinking (c : Nat) (s : ControllerState) :
    (setCirclePattern c s).isBlinking = s.isBlinking := rfl

theorem setCirclePattern_verboseLogging (c : Nat) (s : ControllerState) :
    (setCirclePattern c s).verboseLogging = s.verboseLogging := rfl

theorem setCirclePattern_lastCommandTime (c : Nat) (s : ControllerState) :
    (setCirclePattern c s).lastCommandTime = s.lastCommandTime := rfl

theorem ite_detectionLevel (c : Prop) [Decidable c] (a b : ControllerState) :
    (if c then a else b).detectionLevel =
      if c then a.detectionLevel else b.detectionLevel := by
  split <;> rfl

theorem ite_isBlinking (c : Prop) [Decidable c] (a b : ControllerState) :
    (if c then a else b).isBlinking =
      if c then a.isBlinking else b.isBlinking := by
  split <;> rfl

theorem ite_verboseLogging (c : Prop) [Decidable c] (a b : ControllerState) :
    (if c then a else b).verboseLogging =
      if c then a.verboseLogging else b.verboseLogging := by
  split <;> rfl

theorem ite_lastCommandTime (c : Prop) [Decidable c] (a b : ControllerState) :
    (if c then a else b).lastCommandTime =
      if c then a.lastCommandTime else b.lastCommandTime := by
  split <;> rfl

theorem ite_strip (c : Prop) [Decidable c] (a b : ControllerState) :
    (if c then a else b).strip = if c then a.strip else b.strip := by
  split <;> rfl

/-- With no input and level 0, a loop iteration never changes the level,
the blink flag or the frame (only the ping bookkeeping can move). -/
theorem loopIter_level_zero (now : Nat) (s : ControllerState)
    (h : s.detectionLevel = 0) :
    (loopIter now [] s).detectionLevel = 0 ∧
    (loopIter now [] s).isBlinking = s.isBlinking ∧
    (loopIter now [] s).strip = s.strip := by
  simp [loopIter, receiveSerialCommand, receiveSerialCommandAux,
    ite_detectionLevel, ite_isBlinking, ite_verboseLogging,
    ite_lastCommandTime, ite_strip,
    setCirclePattern_detectionLevel, setCirclePattern_isBlinking,
    setCirclePattern_verboseLogging, setCirclePattern_lastCommandTime, h]

/-- C3: if no serial byte arrives while the level is nonzero and the idle
timeout has elapsed, the next loop iteration forces the level to 0,
cancels blinking and renders the green circle; and with continued silence
every later iteration keeps level 0, blink off and the frame untouched,
so the timeout transition fires exactly once. -/
theorem idle_timeout_fires_once (now : Nat) (s : ControllerState)
    (hlevel : s.detectionLevel ≠ 0)
    (htime : now - s.lastCommandTime > serialTimeout) :
    (loopIter now [] s).detectionLevel = 0 ∧
    (loopIter now [] s).isBlinking = false ∧
    (∀ x y, x < 8 → y < 8 → (loopIter now [] s).strip (y * 8 + x) =
      if inCircle x y then GREEN_COLOR else 0) ∧
    ∀ now2, (loopIter now2 [] (loopIter now [] s)).detectionLevel = 0 ∧
      (loopIter now2 [] (loopIter now [] s)).isBlinking = false ∧
      (loopIter now2 [] (loopIter now [] s)).strip = (loopIter now [] s).strip := by
  have h1 : (loopIter now [] s).detectionLevel = 0 := by
    simp [loopIter, receiveSerialCommand, receiveSerialCommandAux,
      ite_detectionLevel, ite_isBlinking, ite_verboseLogging,
      ite_lastCommandTime, ite_strip,
      setCirclePattern_detectionLevel, setCirclePattern_isBlinking,
      setCirclePattern_verboseLogging, setCirclePattern_lastCommandTime,
      htime, hlevel]
  have h2 : (loopIter now [] s).isBlinking = false := by
    simp [loopIter, receiveSerialCommand, receiveSerialCommandAux,
      ite_detectionLevel, ite_isBlinking, ite_verboseLogging,
      ite_lastCommandTime, ite_strip,
      setCirclePattern_detectionLevel, setCirclePattern_isBlinking,
      setCirclePattern_verboseLogging, setCirclePattern_lastCommandTime,
      htime, hlevel]
  have h3 : ∀ x y, x < 8 → y < 8 → (loopIter now [] s).strip (y * 8 + x) =
      if inCircle x y then GREEN_COLOR else 0 := by
    intro x y hx hy
    simp only [loopIter, receiveSerialCommand, receiveSerialCommandAux,
      ite_detectionLevel, ite_isBlinking, ite_verboseLogging,
      ite_lastCommandTime, ite_strip,
      setCirclePattern_detectionLevel, setCirclePattern_isBlinking,
      setCirclePattern_verboseLogging, setCirclePattern_lastCommandTime,
      htime, hlevel, ne_eq, not_false_eq_true, and_self, and_true, true_and,
      if_true, ite_self, gt_iff_lt, not_false_iff]
    exact setCirclePattern_strip_apply GREEN_COLOR _ x y hx hy
  refine ⟨h1, h2, h3, fun now2 => ?_⟩
  obtain ⟨g1, g2, g3⟩ := loopIter_level_zero now2 (loopIter now [] s) h1
  exact ⟨g1, by rw [g2, h2], g3⟩

/-- C3 witness: a state that has just processed '1', then 6 s of serial
silence. -/
theorem idle_timeout_fires_once_witness :
    (loopIter 6000 [] (processCommand '1' blankState)).detectionLevel = 0 :=
  (idle_timeout_fires_once 6000 (processCommand '1' blankState)
    (by decide) (by decide)).1

theorem processCommand_blinkInv (c : Char) (s : ControllerState)
    (h : BlinkInv s) : BlinkInv (processCommand c s) := by
  have hlb := processCommand_level_blink c s
  have h1 : (processCommand c s).detectionLevel =
      (if c = 'v' then (s.detectionLevel, s.isBlinking)
       else if c = '0' then ((0 : Nat), false)
       else if c = '1' ∨ c = '2' then (1, true)
       else (s.detectionLevel, s.isBlinking)).1 := congrArg Prod.fst hlb
  have h2 : (processCommand c s).isBlinking =
      (if c = 'v' then (s.detectionLevel, s.isBlinking)
       else if c = '0' then ((0 : Nat), false)
       else if c = '1' ∨ c = '2' then (1, true)
       else (s.detectionLevel, s.isBlinking)).2 := congrArg Prod.snd hlb
  intro hz
  rw [h2]
  rw [h1] at hz
  by_cases hv : c = 'v'
  · simp [hv] at hz ⊢
    exact h hz
  · by_cases h0 : c = '0'
    · simp [hv, h0]
    · by_cases h12 : c = '1' ∨ c = '2'
      · simp [hv, h0, h12] at hz
      · simp [hv, h0, h12] at hz ⊢
        exact h hz

theorem logReceive_blinkInv (lab : String) (buf : List Char) (s : ControllerState)
    (h : BlinkInv s) : BlinkInv (logReceive lab buf s) := by
  rw [logReceive]
  split
  · exact h
  · exact h

theorem receiveAux_blinkInv (now : Nat) :
    ∀ (input buf : List Char) (s : ControllerState), BlinkInv s →
      BlinkInv (receiveSerialCommandAux now input buf s).2 := by
  intro input
  induction input with
  | nil => intro buf s h; exact h
  | cons c rest ih =>
    intro buf s h
    have h1 : BlinkInv ({ s with lastCommandTime := now } : ControllerState) := h
    by_cases hterm : isTermChar c
    · by_cases hbuf : buf.isEmpty
      · simp [receiveSerialCommandAux, hterm, hbuf]
        exact ih buf _ h1
      · simp [receiveSerialCommandAux, hterm, hbuf]
        exact ih [] _ (processCommand_blinkInv _ _ (logReceive_blinkInv _ _ _ h1))
    · by_cases hrest : rest.isEmpty
      · simp [receiveSerialCommandAux, hterm, hrest]
        exact ih [] _ (processCommand_blinkInv _ _ (logReceive_blinkInv _ _ _ h1))
      · simp [receiveSerialCommandAux, hterm, hrest]
        exact ih (buf ++ [c]) _ h1

theorem loopIter_blinkInv (now : Nat) (input : List Char) (s : ControllerState)
    (h : BlinkInv s) : BlinkInv (loopIter now input s) := by
  have hu : BlinkInv (receiveSerialCommand now input s).2 :=
    receiveAux_blinkInv now input [] s h
  intro hz
  simp only [loopIter, ite_detectionLevel, ite_isBlinking, ite_verboseLogging,
    ite_lastCommandTime, ite_strip, setCirclePattern_detectionLevel,
    setCirclePattern_isBlinking, setCirclePattern_verboseLogging,
    setCirclePattern_lastCommandTime, ite_self] at hz ⊢
  split_ifs at hz ⊢ with hc
  · rfl
  · exact hu hz

/-- C9: in the matrix variant, whenever detectionLevel is 0 the blink flag
is off; this holds in the initial state and is preserved by every command
dispatch (including 'v', unrecognized bytes, and the level commands) and
by every loop iteration (hence also by the idle-timeout transition). -/
theorem blink_invariant_preserved :
    BlinkInv initialState ∧
    (∀ (c : Char) (s : ControllerState), BlinkInv s → BlinkInv (processCommand c s)) ∧
    ∀ (now : Nat) (input : List Char) (s : ControllerState),
      BlinkInv s → BlinkInv (loopIter now input s) :=
  ⟨fun _ => rfl, processCommand_blinkInv, loopIter_blinkInv⟩

/-- C9 witness: the invariant holds after dispatching '1' on the initial
state. -/
theorem blink_invariant_preserved_witness :
    BlinkInv (processCommand '1' initialState) :=
  blink_invariant_preserved.2.1 '1' initialState (by decide)

/-- Splitting distributes over a terminator after a terminator-free
chunk. -/
theorem splitLines_term (t : Char) (ht : isTermChar t = true) :
    ∀ (buf : List Char), (∀ c ∈ buf, isTermChar c = false) →
      ∀ rest : List Char, splitLines (buf ++ t :: rest) = buf :: splitLines rest := by
  intro buf
  induction buf with
  | nil =>
    intro _ rest
    simp [splitLines, ht]
  | cons b bs ih =>
    intro hbuf rest
    have hb : isTermChar b = false := hbuf b (by simp)
    have ih2 := ih (fun c hc => hbuf c (by simp [hc])) rest
    simp [splitLines, hb, ih2]

/-- A terminator-free stream is a single line. -/
theorem splitLines_noTerm : ∀ (l : List Char), (∀ c ∈ l, isTermChar c = false) →
    splitLines l = [l] := by
  intro l
  induction l with
  | nil => intro _; rfl
  | cons b bs ih =>
    intro hl
    have hb : isTermChar b = false := hl b (by simp)
    have ih2 := ih (fun c hc => hl c (by simp [hc]))
    simp [splitLines, hb, ih2]

theorem nonemptyHeads_nil_cons (ls : List (List Char)) :
    nonemptyHeads ([] :: ls) = nonemptyHeads ls := by
  simp [nonemptyHeads]

theorem nonemptyHeads_cons (l : List Char) (hl : l ≠ []) (ls : List (List Char)) :
    nonemptyHeads (l :: ls) = l.headD ' ' :: nonemptyHeads ls := by
  simp [nonemptyHeads, hl]

/-- The dispatch trace of the receive loop: the first character of every
non-empty line of the pending buffer followed by the input stream. -/
theorem receiveAux_dispatched (now : Nat) :
    ∀ (input buf : List Char) (s : ControllerState),
      input ≠ [] → (∀ c ∈ buf, isTermChar c = false) →
      (receiveSerialCommandAux now input buf s).1 =
        nonemptyHeads (splitLines (buf ++ input)) := by
  intro input
  induction input with
  | nil => intro buf s hne _; exact absurd rfl hne
  | cons c rest ih =>
    intro buf s _ hbuf
    by_cases hterm : isTermChar c
    · by_cases hbufE : buf.isEmpty
      · have hb : buf = [] := List.isEmpty_iff.mp hbufE
        subst hb
        by_cases hrest : rest = []
        · subst hrest
          simp [receiveSerialCommandAux, hterm, splitLines, nonemptyHeads]
        · have hr := ih [] ({ s with lastCommandTime := now }) hrest (by simp)
          simp only [List.nil_append]
          simp [receiveSerialCommandAux, hterm, splitLines, nonemptyHeads_nil_cons, hr]
      · have hbne : buf ≠ [] := fun he => by
          rw [he] at hbufE
          exact hbufE rfl
        by_cases hrest : rest = []
        · subst hrest
          rw [splitLines_term c hterm buf hbuf []]
          rw [nonemptyHeads_cons buf hbne]
          simp [receiveSerialCommandAux, hterm, hbufE, splitLines, nonemptyHeads]
        · have hr := ih []
            (processCommand (buf.headD ' ')
              (logReceive "명령 수신: " buf { s with lastCommandTime := now }))
            hrest (by simp)
          rw [splitLines_term c hterm buf hbuf rest]
          rw [nonemptyHeads_cons buf hbne]
          simp at hr
          simp [receiveSerialCommandAux, hterm, hbufE, hr]
    · by_cases hrest : rest = []
      · subst hrest
        have hall : ∀ d ∈ buf ++ [c], isTermChar d = false := by
          intro d hd
          rcases List.mem_append.mp hd with hd1 | hd1
          · exact hbuf d hd1
          · rw [List.mem_singleton.mp hd1]
            exact Bool.not_eq_true _ ▸ (by simpa using hterm)
        rw [show buf ++ [c] = buf ++ c :: [] from rfl] at hall
        have hsp := splitLines_noTerm (buf ++ [c]) (by
          intro d hd
          exact hall d (by simpa using hd))
        have hne2 : buf ++ [c] ≠ [] := by simp
        simp [receiveSerialCommandAux, hterm, hsp, nonemptyHeads_cons _ hne2,
          nonemptyHeads]
      · have hall : ∀ d ∈ buf ++ [c], isTermChar d = false := by
          intro d hd
          rcases List.mem_append.mp hd with hd1 | hd1
          · exact hbuf d hd1
          · rw [List.mem_singleton.mp hd1]
            simpa using hterm
        have hr := ih (buf ++ [c]) ({ s with lastCommandTime := now }) hrest hall
        have hassoc : (buf ++ [c]) ++ rest = buf ++ c :: rest := by simp
        rw [hassoc] at hr
        simp [receiveSerialCommandAux, hterm, hrest, hr]

/-- C4: for every received line (ended by a terminator or by the input
running dry) whose pending buffer is non-empty, exactly one command is
dispatched, using only the first buffered character; the rest of the line
is silently discarded and the buffer is cleared: the dispatch trace of
`receiveSerialCommand` is exactly the first character of each non-empty
line of the input. -/
theorem dispatch_first_char_per_line (now : Nat) (input : List Char)
    (s : ControllerState) :
    (receiveSerialCommand now input s).1 = nonemptyHeads (splitLines input) := by
  by_cases hin : input = []
  · subst hin; rfl
  · exact receiveAux_dispatched now input [] s hin (by simp)

namespace Readme

theorem setColor_detectionLevel (c : Nat) (s : SketchState) :
    (setColor c s).detectionLevel = s.detectionLevel := rfl

theorem setColor_renders (c : Nat) (s : SketchState) :
    (setColor c s).renders = s.renders ++ [c] := rfl

theorem foldl_setColor_renders (f : Nat → Nat) :
    ∀ (l : List Nat) (s : SketchState),
      (l.foldl (fun st k => setColor (f k) st) s).renders = s.renders ++ l.map f := by
  intro l
  induction l with
  | nil => intro s; simp
  | cons a t ih =>
    intro s
    rw [List.foldl_cons, ih, List.map_cons]
    simp [setColor]

theorem foldl_setColor_detectionLevel (f : Nat → Nat) (l : List Nat) (s : SketchState) :
    (l.foldl (fun st k => setColor (f k) st) s).detectionLevel = s.detectionLevel :=
  foldl_preserve SketchState.detectionLevel
    (fun st k => setColor (f k) st) (fun _ _ => rfl) l s

/-- The render trace of the `count` down/up brightness cycles of
`pulseEffect`. -/
theorem pulse_cycles_renders (color : Nat) :
    ∀ (n : Nat) (s : SketchState),
      ((List.range n).foldl (fun st _ =>
        upSteps.foldl (fun st k => setColor (scaleColor color k) st)
          (downSteps.foldl (fun st k => setColor (scaleColor color k) st) st)) s).renders
      = s.renders ++
        (List.replicate n ((downSteps ++ upSteps).map (scaleColor color))).flatten := by
  intro n
  induction n with
  | zero => intro s; simp
  | succ m ih =>
    intro s
    rw [List.range_succ, List.foldl_append, List.foldl_cons, List.foldl_nil]
    rw [foldl_setColor_renders (scaleColor color) upSteps]
    rw [foldl_setColor_renders (scaleColor color) downSteps]
    rw [ih s, List.replicate_succ']
    simp [List.map_append, List.append_assoc]

/-- `pulseEffect` renders exactly the pulse trace. -/
theorem pulseEffect_renders (color count : Nat) (s : SketchState) :
    (pulseEffect color count s).renders = s.renders ++ pulseRendersList color count := by
  simp only [pulseEffect, setColor_renders, pulse_cycles_renders, pulseRendersList,
    List.append_assoc]

/-- `pulseEffect` never touches the detection level. -/
theorem pulseEffect_detectionLevel (color count : Nat) (s : SketchState) :
    (pulseEffect color count s).detectionLevel = s.detectionLevel := by
  simp only [pulseEffect, setColor_detectionLevel]
  exact foldl_preserve SketchState.detectionLevel
    (fun st _ => upSteps.foldl (fun st k => setColor (scaleColor color k) st)
      (downSteps.foldl (fun st k => setColor (scaleColor color k) st) st))
    (fun b _ => (foldl_setColor_detectionLevel _ upSteps _).trans
      (foldl_setColor_detectionLevel _ downSteps b))
    (List.range count) s

end Readme

/-- C7: in the README sketch, dispatching 'p' triggers a bounded pulse
animation — 3 cycles of a descending then ascending brightness ramp of
the current level's color (103 renders in all, the last one restoring the
full color) — and does not change the detection level. -/
theorem pulse_command_behavior (s : Readme.SketchState) :
    (Readme.loopCommand 'p' s).detectionLevel = s.detectionLevel ∧
    (Readme.loopCommand 'p' s).renders =
      s.renders ++ Readme.pulseRendersList (Readme.levelColor s.detectionLevel) 3 ∧
    (∀ c : Nat, (Readme.pulseRendersList c 3).length = 103) ∧
    (∀ c : Nat, (Readme.pulseRendersList c 3).getLast? = some c) ∧
    Readme.downSteps.length = 17 ∧ Readme.upSteps.length = 17 ∧
    (∀ i < 16, Readme.downSteps.getD (i + 1) 0 ≤ Readme.downSteps.getD i 0) ∧
    (∀ i < 16, Readme.upSteps.getD i 0 ≤ Readme.upSteps.getD (i + 1) 0) := by
  refine ⟨?_, ?_, fun c => rfl, fun c => rfl, by decide, by decide, by decide, by decide⟩
  · by_cases hl0 : s.detectionLevel = 0
    · simp [Readme.loopCommand, hl0, Readme.pulseEffect_detectionLevel]
    · by_cases hl1 : s.detectionLevel = 1
      · simp [Readme.loopCommand, hl0, hl1, Readme.pulseEffect_detectionLevel]
      · simp [Readme.loopCommand, hl0, hl1, Readme.pulseEffect_detectionLevel]
  · by_cases hl0 : s.detectionLevel = 0
    · simp [Readme.loopCommand, hl0, Readme.pulseEffect_renders, Readme.levelColor]
    · by_cases hl1 : s.detectionLevel = 1
      · simp [Readme.loopCommand, hl0, hl1, Readme.pulseEffect_renders,
          Readme.levelColor]
      · simp [Readme.loopCommand, hl0, hl1, Readme.pulseEffect_renders,
          Readme.levelColor]
